import Mathlib

/-
Verification of the msru crate (src/src/lib.rs): a user-space accessor for
x86 model-specific registers through the per-CPU device node
/dev/cpu/<cpu>/msr.

Shallow embedding. The pure parts (the byte-buffer encode/decode pair) are
Lean functions on Nat; bytes are Nat values below 256 and 64-bit values are
Nat values below 2 ^ 64, with the native byte order of the supported hosts
rendered as the fixed least-significant-byte-first order that
u64.to_ne_bytes and u64.from_ne_bytes use there. The effectful parts are
explicit state passing: the OS file the handle is bound to is a Device
record (content bytes, end-of-stream size, and per-offset failure behaviour
for seek and positioned write, standing for the latitude the OS has to fail
those calls); the seek cursor of the open handle lives in the accessor as
fhPos; the filesystem seen by the constructor is a FileSystem record
(path-existence test and open call). Fallible operations return Except.
-/

namespace Msru

/-- An operating-system I/O error, carrying its underlying detail as an
abstract code (standing for std.io.Error). -/
structure IoErr where
  code : Nat
  deriving DecidableEq, Repr

/-- The error enum MsrError of lib.rs, lines 17-22: a wrapped I/O error,
the missing-kernel-module classification, and a fallback variant. -/
inductive MsrError where
  | ioError : IoErr → MsrError
  | missingKernelModule : MsrError
  | unknownError : MsrError
  deriving DecidableEq, Repr

/-- The open per-CPU device node as the OS presents it to the handle:
content byte at each offset, the end-of-stream position, and for each
offset whether a seek to it or a positioned write at it fails (none means
success; some e means the OS reports error e). -/
structure Device where
  data : Nat → Nat
  size : Nat
  seekFail : Nat → Option IoErr
  writeFail : Nat → Option IoErr

/-- The error read_exact reports when end-of-stream arrives before the
buffer is filled (ErrorKind.UnexpectedEof). -/
def unexpectedEof : IoErr := ⟨1⟩

/-- The struct Msr of lib.rs, lines 45-50: the register address reg, the
file handle fh (its seek cursor, fhPos; the file itself is the Device
passed to each operation), and the 8-byte buffer. -/
structure Msr where
  reg : Nat
  fhPos : Nat
  buffer : List Nat
  deriving DecidableEq, Repr

/-- The open options the constructor uses: OpenOptions.new().read(b).write(b). -/
structure OpenOptions where
  read : Bool
  write : Bool
  deriving DecidableEq, Repr

/-- The filesystem the constructor interacts with: Path.exists for a path
string, and the open call, which for given options and path either fails
with an I/O error or yields the opened device node. -/
structure FileSystem where
  pathExists : String → Bool
  openFile : OpenOptions → String → Except IoErr Device

/-- The device path format string of Msr.new, line 55: /dev/cpu/{cpu}/msr
with the CPU index in decimal. -/
def cpuMsrPath (cpu : Nat) : String :=
  "/dev/cpu/" ++ toString cpu ++ "/msr"

/-- Msr.new, lib.rs lines 54-67: build the path, fail with
MissingKernelModule when it does not exist, otherwise open it with read and
write access, wrapping an open failure as IoError; on success the accessor
starts with the given register, cursor 0, and a zeroed 8-byte buffer. -/
def Msr.new (fs : FileSystem) (reg : Nat) (cpu : Nat) :
    Except MsrError (Msr × Device) :=
  let cpu_msr_path := cpuMsrPath cpu
  if !fs.pathExists cpu_msr_path then
    Except.error MsrError.missingKernelModule
  else
    match fs.openFile ⟨true, true⟩ cpu_msr_path with
    | Except.error e => Except.error (MsrError.ioError e)
    | Except.ok d => Except.ok ({ reg := reg, fhPos := 0, buffer := List.replicate 8 0 }, d)

/-- u64.to_ne_bytes as used by Msr.set_value: the eight base-256 digits of
the value, least significant first (the native order of the hosts the crate
supports). -/
def toNeBytes (v : Nat) : List Nat :=
  [v % 256, v / 256 % 256, v / 65536 % 256, v / 16777216 % 256,
   v / 4294967296 % 256, v / 1099511627776 % 256,
   v / 281474976710656 % 256, v / 72057594037927936 % 256]

/-- u64.from_ne_bytes as used by Msr.read_value: recombine eight bytes,
least significant first, into the value. Lists of other lengths do not
arise (the buffer is always 8 bytes). -/
def fromNeBytes : List Nat → Nat
  | b0 :: b1 :: b2 :: b3 :: b4 :: b5 :: b6 :: b7 :: _ =>
      b0 + 256 * b1 + 65536 * b2 + 16777216 * b3 + 4294967296 * b4 +
      1099511627776 * b5 + 281474976710656 * b6 + 72057594037927936 * b7
  | _ => 0

/-- Msr.read_value, lib.rs lines 70-72: decode the buffer as a native-order
u64. Takes the accessor immutably in effect (the Rust receiver is mut but
nothing is written) and never fails. -/
def Msr.read_value (m : Msr) : Nat :=
  fromNeBytes m.buffer

/-- Msr.set_value, lib.rs lines 76-78: overwrite the buffer with the
native-order bytes of the value. Never fails. -/
def Msr.set_value (m : Msr) (value : Nat) : Msr :=
  { m with buffer := toNeBytes value }

/-- Byte i of the buffer after read_exact copied n bytes from the device
starting at offset pos: positions below n hold device bytes, the rest keep
their previous content. -/
def fillByte (d : Device) (pos n : Nat) (old : List Nat) (i : Nat) : Nat :=
  if i < n then d.data (pos + i) else old.getD i 0

/-- The whole 8-byte buffer after read_exact copied n bytes from the device
starting at offset pos over the previous contents old. -/
def readBuf (d : Device) (pos n : Nat) (old : List Nat) : List Nat :=
  [fillByte d pos n old 0, fillByte d pos n old 1, fillByte d pos n old 2,
   fillByte d pos n old 3, fillByte d pos n old 4, fillByte d pos n old 5,
   fillByte d pos n old 6, fillByte d pos n old 7]

/-- Msr.read of the Accessor impl, lib.rs lines 89-93: seek the handle to
offset reg (failing there leaves everything untouched), then read_exact 8
bytes into the buffer. read_exact copies bytes until the buffer is full or
end-of-stream: with at least 8 bytes available it fills the buffer and the
cursor ends 8 past reg, and the decoded value is returned; with fewer, the
available bytes are still copied into the front of the buffer, the cursor
advances past them, and UnexpectedEof is reported, wrapped as IoError. -/
def Msr.read (d : Device) (m : Msr) : Except MsrError Nat × Msr :=
  match d.seekFail m.reg with
  | some e => (Except.error (MsrError.ioError e), m)
  | none =>
      if 8 ≤ d.size - m.reg then
        (Except.ok (fromNeBytes (readBuf d m.reg 8 m.buffer)),
         { m with buffer := readBuf d m.reg 8 m.buffer, fhPos := m.reg + 8 })
      else
        (Except.error (MsrError.ioError unexpectedEof),
         { m with buffer := readBuf d m.reg (d.size - m.reg) m.buffer,
                  fhPos := m.reg + (d.size - m.reg) })

/-- Msr.write of the Accessor impl, lib.rs lines 97-101: write_all_at puts
the 8 buffer bytes at absolute offset reg without consulting or moving the
handle cursor; the accessor (taken by shared reference in Rust) is passed
through unchanged. On success the device content carries the buffer bytes
at offsets reg..reg+8 and the end-of-stream extends to cover them; a
failing positioned write is wrapped as IoError and leaves the device
unchanged. -/
def Msr.write (m : Msr) (d : Device) : Except MsrError Unit × Msr × Device :=
  match d.writeFail m.reg with
  | some e => (Except.error (MsrError.ioError e), m, d)
  | none =>
      (Except.ok (), m,
       { d with
         data := fun i =>
           if m.reg ≤ i ∧ i < m.reg + 8 then m.buffer.getD (i - m.reg) 0 else d.data i,
         size := max d.size (m.reg + 8) })

/-- A concrete device used to instantiate theorems: byte i % 256 at offset
i, 1024 bytes long, no seek or positioned-write failures. -/
def testDev : Device :=
  { data := fun i => i % 256, size := 1024,
    seekFail := fun _ => none, writeFail := fun _ => none }

/-- A concrete device that is 20 bytes long, so that only 4 bytes are
available at offset 16; every content byte is 255; no seek or write
failures. -/
def shortDev : Device :=
  { data := fun _ => 255, size := 20,
    seekFail := fun _ => none, writeFail := fun _ => none }

/-- A concrete device on which every seek fails with error code 5. -/
def seekFailDev : Device :=
  { data := fun _ => 0, size := 1024,
    seekFail := fun _ => some ⟨5⟩, writeFail := fun _ => none }

/-- A concrete filesystem on which no path exists; its open call would fail
with error code 42 if it were ever consulted. -/
def absentFs : FileSystem :=
  { pathExists := fun _ => false, openFile := fun _ _ => Except.error ⟨42⟩ }

/-- A concrete filesystem on which every path exists and opening yields
testDev. -/
def presentFs : FileSystem :=
  { pathExists := fun _ => true, openFile := fun _ _ => Except.ok testDev }

/-- Decode inverts encode on every 64-bit value. -/
theorem fromNe_toNe (v : Nat) (hv : v < 2 ^ 64) :
    fromNeBytes (toNeBytes v) = v := by
  simp only [toNeBytes, fromNeBytes]
  omega

/-- With 8 bytes available, read_exact fills the buffer entirely from the
device: the previous contents are gone. -/
theorem readBuf_full (d : Device) (pos : Nat) (old : List Nat) :
    readBuf d pos 8 old =
      [d.data pos, d.data (pos + 1), d.data (pos + 2), d.data (pos + 3),
       d.data (pos + 4), d.data (pos + 5), d.data (pos + 6), d.data (pos + 7)] := by
  simp [readBuf, fillByte]

/-- Inversion for a successful read: the seek succeeded, at least 8 bytes
were available, the result is the decoded fresh buffer, and the post-state
is the accessor with the fresh buffer and the cursor 8 past the register. -/
theorem read_ok_inv (d : Device) (m : Msr) (v : Nat) (m' : Msr)
    (h : Msr.read d m = (Except.ok v, m')) :
    d.seekFail m.reg = none ∧ 8 ≤ d.size - m.reg ∧
    m' = { m with buffer := readBuf d m.reg 8 m.buffer, fhPos := m.reg + 8 } ∧
    v = fromNeBytes (readBuf d m.reg 8 m.buffer) := by
  unfold Msr.read at h
  cases hs : d.seekFail m.reg with
  | some e => rw [hs] at h; simp at h
  | none =>
      rw [hs] at h
      by_cases h8 : 8 ≤ d.size - m.reg
      · rw [if_pos h8] at h
        simp only [Prod.mk.injEq, Except.ok.injEq] at h
        exact ⟨rfl, h8, h.2.symm, h.1.symm⟩
      · rw [if_neg h8] at h
        simp at h

/-- C1: for every 64-bit value v, set_value v followed by read_value gives
back exactly v, on any accessor state: the encode/decode pair is a
lossless, deterministic, native-order round trip, and neither operation can
fail (both are total functions). -/
theorem set_value_read_value_roundtrip (m : Msr) (v : Nat) (hv : v < 2 ^ 64) :
    (m.set_value v).read_value = v := by
  show fromNeBytes (toNeBytes v) = v
  exact fromNe_toNe v hv

/-- Witness for C1 at v = 0xDEADBEEFCAFEBABE. -/
theorem set_value_read_value_roundtrip_witness :
    0xDEADBEEFCAFEBABE < 2 ^ 64 ∧
    ((⟨16, 0, List.replicate 8 0⟩ : Msr).set_value 0xDEADBEEFCAFEBABE).read_value =
      0xDEADBEEFCAFEBABE :=
  ⟨by norm_num,
   set_value_read_value_roundtrip ⟨16, 0, List.replicate 8 0⟩ 0xDEADBEEFCAFEBABE (by norm_num)⟩

/-- C2: for every register, CPU index and filesystem state in which the
device path does not exist, construction fails with MissingKernelModule.
The filesystem (and with it the behaviour of its open call) is universally
quantified and only its pathExists answer is constrained, so the result
holds whatever open would do: the open call is never attempted. -/
theorem new_missing_module (fs : FileSystem) (reg cpu : Nat)
    (h : fs.pathExists (cpuMsrPath cpu) = false) :
    Msr.new fs reg cpu = Except.error MsrError.missingKernelModule := by
  simp [Msr.new, h]

/-- Witness for C2 on the filesystem without the device node. -/
theorem new_missing_module_witness :
    absentFs.pathExists (cpuMsrPath 0) = false ∧
    Msr.new absentFs 16 0 = Except.error MsrError.missingKernelModule :=
  ⟨rfl, new_missing_module absentFs 16 0 rfl⟩

/-- C3: whenever read succeeds, the post-state buffer holds exactly the 8
device bytes at offsets reg..reg+7, the returned value is their
native-order decoding, the cursor ended at reg + 8 (the seek moved it to
reg and the read advanced it by 8), the register is unchanged, and at least
8 bytes were available. -/
theorem read_success_spec (d : Device) (m : Msr) (v : Nat) (m' : Msr)
    (h : Msr.read d m = (Except.ok v, m')) :
    m'.buffer = [d.data m.reg, d.data (m.reg + 1), d.data (m.reg + 2),
      d.data (m.reg + 3), d.data (m.reg + 4), d.data (m.reg + 5),
      d.data (m.reg + 6), d.data (m.reg + 7)] ∧
    v = fromNeBytes m'.buffer ∧
    m'.fhPos = m.reg + 8 ∧ m'.reg = m.reg ∧ m.reg + 8 ≤ d.size := by
  obtain ⟨hs, h8, hm, hv⟩ := read_ok_inv d m v m' h
  subst hm
  refine ⟨readBuf_full d m.reg m.buffer, ?_, rfl, rfl, by omega⟩
  simpa using hv

/-- Witness for C3: reading register 16 on testDev. -/
theorem read_success_spec_witness :
    (⟨16, 24, [16, 17, 18, 19, 20, 21, 22, 23]⟩ : Msr).buffer =
      [testDev.data 16, testDev.data (16 + 1), testDev.data (16 + 2),
       testDev.data (16 + 3), testDev.data (16 + 4), testDev.data (16 + 5),
       testDev.data (16 + 6), testDev.data (16 + 7)] ∧
    fromNeBytes [16, 17, 18, 19, 20, 21, 22, 23] =
      fromNeBytes (⟨16, 24, [16, 17, 18, 19, 20, 21, 22, 23]⟩ : Msr).buffer ∧
    (⟨16, 24, [16, 17, 18, 19, 20, 21, 22, 23]⟩ : Msr).fhPos = 16 + 8 ∧
    (⟨16, 24, [16, 17, 18, 19, 20, 21, 22, 23]⟩ : Msr).reg = 16 ∧
    16 + 8 ≤ testDev.size :=
  read_success_spec testDev ⟨16, 0, List.replicate 8 0⟩
    (fromNeBytes [16, 17, 18, 19, 20, 21, 22, 23])
    ⟨16, 24, [16, 17, 18, 19, 20, 21, 22, 23]⟩ rfl

/-- C5: whenever fewer than 8 bytes are available at the register offset
before end-of-stream, read fails with an I/O-classified error (so no
decoded value is returned). -/
theorem read_short_errors (d : Device) (m : Msr) (h : d.size < m.reg + 8) :
    ∃ e, (Msr.read d m).1 = Except.error (MsrError.ioError e) := by
  cases hs : d.seekFail m.reg with
  | none =>
      have h8 : ¬ 8 ≤ d.size - m.reg := by omega
      exact ⟨unexpectedEof, by simp [Msr.read, hs, h8]⟩
  | some e => exact ⟨e, by simp [Msr.read, hs]⟩

/-- Witness for C5: only 4 bytes are available at offset 16 of shortDev. -/
theorem read_short_errors_witness :
    shortDev.size < 16 + 8 ∧
    ∃ e, (Msr.read shortDev ⟨16, 0, List.replicate 8 0⟩).1 =
      Except.error (MsrError.ioError e) :=
  ⟨by decide, read_short_errors shortDev ⟨16, 0, List.replicate 8 0⟩ (by decide)⟩

/-- C10: whenever the seek step of read fails, read returns that error
wrapped as IoError and the accessor is returned exactly as it was: buffer,
register and cursor untouched. -/
theorem read_seek_fail_state_unchanged (d : Device) (m : Msr) (e : IoErr)
    (h : d.seekFail m.reg = some e) :
    Msr.read d m = (Except.error (MsrError.ioError e), m) := by
  simp [Msr.read, h]

/-- Witness for C10 on the device whose seeks fail with error code 5. -/
theorem read_seek_fail_state_unchanged_witness :
    seekFailDev.seekFail 16 = some ⟨5⟩ ∧
    Msr.read seekFailDev ⟨16, 0, List.replicate 8 0⟩ =
      (Except.error (MsrError.ioError ⟨5⟩), ⟨16, 0, List.replicate 8 0⟩) :=
  ⟨rfl, read_seek_fail_state_unchanged seekFailDev ⟨16, 0, List.replicate 8 0⟩ ⟨5⟩ rfl⟩

/-- Specification of a successful positioned write: the accessor passes
through untouched, the new device carries the 8 buffer bytes at offsets
reg..reg+7 and the old content elsewhere, failure behaviour is unchanged,
and the end-of-stream extends to cover the written range. -/
theorem write_ok_spec (m : Msr) (d : Device) (hw : d.writeFail m.reg = none) :
    ∃ d', Msr.write m d = (Except.ok (), m, d') ∧
      (∀ i, i < 8 → d'.data (m.reg + i) = m.buffer.getD i 0) ∧
      (∀ j, j < m.reg ∨ m.reg + 8 ≤ j → d'.data j = d.data j) ∧
      d'.seekFail = d.seekFail ∧ d'.writeFail = d.writeFail ∧
      d'.size = max d.size (m.reg + 8) := by
  refine ⟨{ d with
      data := fun i =>
        if m.reg ≤ i ∧ i < m.reg + 8 then m.buffer.getD (i - m.reg) 0 else d.data i,
      size := max d.size (m.reg + 8) }, ?_, ?_, ?_, rfl, rfl, rfl⟩
  · simp [Msr.write, hw]
  · intro i hi
    show (if m.reg ≤ m.reg + i ∧ m.reg + i < m.reg + 8 then
        m.buffer.getD (m.reg + i - m.reg) 0 else d.data (m.reg + i)) = m.buffer.getD i 0
    rw [if_pos ⟨Nat.le_add_right _ _, by omega⟩]
    congr 1
    omega
  · intro j hj
    show (if m.reg ≤ j ∧ j < m.reg + 8 then
        m.buffer.getD (j - m.reg) 0 else d.data j) = d.data j
    rw [if_neg (by omega)]

/-- Reading a register whose device bytes hold the encoding of a 64-bit
value yields that value. -/
theorem read_of_staged (d : Device) (m : Msr) (v : Nat) (hv : v < 2 ^ 64)
    (hs : d.seekFail m.reg = none) (h8 : m.reg + 8 ≤ d.size)
    (hd : ∀ i, i < 8 → d.data (m.reg + i) = (toNeBytes v).getD i 0) :
    (Msr.read d m).1 = Except.ok v := by
  unfold Msr.read
  rw [hs, if_pos (by omega)]
  show Except.ok (fromNeBytes (readBuf d m.reg 8 m.buffer)) = Except.ok v
  congr 1
  rw [readBuf_full]
  have e0 : d.data m.reg = (toNeBytes v).getD 0 0 := by simpa using hd 0 (by norm_num)
  have e1 : d.data (m.reg + 1) = (toNeBytes v).getD 1 0 := hd 1 (by norm_num)
  have e2 : d.data (m.reg + 2) = (toNeBytes v).getD 2 0 := hd 2 (by norm_num)
  have e3 : d.data (m.reg + 3) = (toNeBytes v).getD 3 0 := hd 3 (by norm_num)
  have e4 : d.data (m.reg + 4) = (toNeBytes v).getD 4 0 := hd 4 (by norm_num)
  have e5 : d.data (m.reg + 5) = (toNeBytes v).getD 5 0 := hd 5 (by norm_num)
  have e6 : d.data (m.reg + 6) = (toNeBytes v).getD 6 0 := hd 6 (by norm_num)
  have e7 : d.data (m.reg + 7) = (toNeBytes v).getD 7 0 := hd 7 (by norm_num)
  rw [e0, e1, e2, e3, e4, e5, e6, e7]
  show fromNeBytes (toNeBytes v) = v
  exact fromNe_toNe v hv

/-- C4: whenever the positioned write succeeds, the device carries exactly
the 8 buffer bytes at absolute offsets reg..reg+7 and is untouched
elsewhere, and the accessor comes back exactly as it went in: register,
buffer and handle cursor are all unchanged (write takes the accessor by
shared reference and never consults or moves the cursor). -/
theorem write_success_spec (m : Msr) (d : Device) (hw : d.writeFail m.reg = none) :
    ∃ d', Msr.write m d = (Except.ok (), m, d') ∧
      (∀ i, i < 8 → d'.data (m.reg + i) = m.buffer.getD i 0) ∧
      (∀ j, j < m.reg ∨ m.reg + 8 ≤ j → d'.data j = d.data j) ∧
      d'.seekFail = d.seekFail ∧ d'.writeFail = d.writeFail ∧
      d'.size = max d.size (m.reg + 8) :=
  write_ok_spec m d hw

/-- Witness for C4: writing buffer [1,...,8] for register 16 on testDev. -/
theorem write_success_spec_witness :
    testDev.writeFail 16 = none ∧
    (∃ d', Msr.write ⟨16, 3, [1, 2, 3, 4, 5, 6, 7, 8]⟩ testDev =
        (Except.ok (), ⟨16, 3, [1, 2, 3, 4, 5, 6, 7, 8]⟩, d') ∧
      (∀ i, i < 8 → d'.data (16 + i) = ([1, 2, 3, 4, 5, 6, 7, 8] : List Nat).getD i 0) ∧
      (∀ j, j < 16 ∨ 16 + 8 ≤ j → d'.data j = testDev.data j) ∧
      d'.seekFail = testDev.seekFail ∧ d'.writeFail = testDev.writeFail ∧
      d'.size = max testDev.size (16 + 8)) :=
  ⟨rfl, write_success_spec ⟨16, 3, [1, 2, 3, 4, 5, 6, 7, 8]⟩ testDev rfl⟩

/-- C6 counterexample: reading register 16 on the 20-byte device leaves the
buffer partially overwritten after the failed read, and read_value observes
that partial state: the buffer is neither its previous contents (all
zeros) nor a full 8-byte overwrite from the device (all 255), and
read_value returns the mixed decoding 0xFFFFFFFF. -/
theorem read_partial_buffer_counterexample :
    (Msr.read shortDev ⟨16, 0, List.replicate 8 0⟩).1 =
      Except.error (MsrError.ioError unexpectedEof) ∧
    (Msr.read shortDev ⟨16, 0, List.replicate 8 0⟩).2.buffer =
      [255, 255, 255, 255, 0, 0, 0, 0] ∧
    (Msr.read shortDev ⟨16, 0, List.replicate 8 0⟩).2.buffer ≠ List.replicate 8 0 ∧
    (Msr.read shortDev ⟨16, 0, List.replicate 8 0⟩).2.buffer ≠
      [255, 255, 255, 255, 255, 255, 255, 255] ∧
    (Msr.read shortDev ⟨16, 0, List.replicate 8 0⟩).2.read_value = 4294967295 :=
  ⟨rfl, rfl, by decide, by decide, rfl⟩

/-- C6 amended: the buffer always stays exactly 8 bytes long (across read,
failed or not, and set_value), and every successful read overwrites it
fully with the 8 device bytes; a failed short read, however, may leave it
partially overwritten, so its contents are unspecified to callers after a
failure. -/
theorem read_buffer_amended (d : Device) (m : Msr) (hb : m.buffer.length = 8) :
    (Msr.read d m).2.buffer.length = 8 ∧
    (∀ v, (Msr.set_value m v).buffer.length = 8) ∧
    (∀ v m', Msr.read d m = (Except.ok v, m') →
      m'.buffer = [d.data m.reg, d.data (m.reg + 1), d.data (m.reg + 2),
        d.data (m.reg + 3), d.data (m.reg + 4), d.data (m.reg + 5),
        d.data (m.reg + 6), d.data (m.reg + 7)]) := by
  refine ⟨?_, fun v => rfl, ?_⟩
  · unfold Msr.read
    cases hs : d.seekFail m.reg with
    | some e => exact hb
    | none =>
        by_cases h8 : 8 ≤ d.size - m.reg
        · rw [if_pos h8]; rfl
        · rw [if_neg h8]; rfl
  · intro v m' h
    obtain ⟨hs, h8, hm, hv⟩ := read_ok_inv d m v m' h
    subst hm
    exact readBuf_full d m.reg m.buffer

/-- Witness for C6 amended on testDev with a zeroed buffer. -/
theorem read_buffer_amended_witness :
    (List.replicate 8 (0 : Nat)).length = 8 ∧
    ((Msr.read testDev ⟨16, 0, List.replicate 8 0⟩).2.buffer.length = 8 ∧
     (∀ v, ((⟨16, 0, List.replicate 8 0⟩ : Msr).set_value v).buffer.length = 8) ∧
     (∀ v m', Msr.read testDev ⟨16, 0, List.replicate 8 0⟩ = (Except.ok v, m') →
       m'.buffer = [testDev.data 16, testDev.data (16 + 1), testDev.data (16 + 2),
         testDev.data (16 + 3), testDev.data (16 + 4), testDev.data (16 + 5),
         testDev.data (16 + 6), testDev.data (16 + 7)])) :=
  ⟨by decide, read_buffer_amended testDev ⟨16, 0, List.replicate 8 0⟩ (by decide)⟩

/-- C7: against a device that accepts the positioned write and the seek at
register offset reg, staging 0xDEADBEEFCAFEBABE with set_value, writing it,
then reading the same register back yields exactly 0xDEADBEEFCAFEBABE. -/
theorem write_then_read_consistency (d : Device) (reg p : Nat) (buf : List Nat)
    (hs : d.seekFail reg = none) (hw : d.writeFail reg = none) :
    (Msr.read (Msr.write (Msr.set_value ⟨reg, p, buf⟩ 0xDEADBEEFCAFEBABE) d).2.2
      (Msr.write (Msr.set_value ⟨reg, p, buf⟩ 0xDEADBEEFCAFEBABE) d).2.1).1 =
      Except.ok 0xDEADBEEFCAFEBABE := by
  obtain ⟨d', hwrite, hdata, _, hseek, _, hsize⟩ :=
    write_ok_spec (Msr.set_value ⟨reg, p, buf⟩ 0xDEADBEEFCAFEBABE) d hw
  rw [hwrite]
  apply read_of_staged
  · norm_num
  · rw [hseek]; exact hs
  · show reg + 8 ≤ d'.size
    rw [hsize]
    exact Nat.le_max_right _ _
  · exact hdata

/-- Witness for C7 at register 16 on testDev. -/
theorem write_then_read_consistency_witness :
    testDev.seekFail 16 = none ∧ testDev.writeFail 16 = none ∧
    (Msr.read
        (Msr.write (Msr.set_value ⟨16, 0, List.replicate 8 0⟩ 0xDEADBEEFCAFEBABE) testDev).2.2
        (Msr.write (Msr.set_value ⟨16, 0, List.replicate 8 0⟩ 0xDEADBEEFCAFEBABE) testDev).2.1).1 =
      Except.ok 0xDEADBEEFCAFEBABE :=
  ⟨rfl, rfl, write_then_read_consistency testDev 16 0 (List.replicate 8 0) rfl rfl⟩

/-- C8: whenever construction succeeds, the accessor records the given
register, its 8-byte buffer is all zeros, its cursor starts at 0, the
device path derived from the CPU index existed, and the handle is exactly
what opening that path with both read and write access produced. -/
theorem new_success_spec (fs : FileSystem) (reg cpu : Nat) (m : Msr) (d : Device)
    (h : Msr.new fs reg cpu = Except.ok (m, d)) :
    m.reg = reg ∧ m.buffer = List.replicate 8 0 ∧ m.fhPos = 0 ∧
    fs.pathExists (cpuMsrPath cpu) = true ∧
    fs.openFile ⟨true, true⟩ (cpuMsrPath cpu) = Except.ok d := by
  simp only [Msr.new] at h
  cases hp : fs.pathExists (cpuMsrPath cpu) with
  | false => rw [hp] at h; simp at h
  | true =>
      rw [hp] at h
      simp only [Bool.not_true, Bool.false_eq_true, if_false] at h
      cases ho : fs.openFile ⟨true, true⟩ (cpuMsrPath cpu) with
      | error e => rw [ho] at h; simp at h
      | ok d0 =>
          rw [ho] at h
          simp only [Except.ok.injEq, Prod.mk.injEq] at h
          obtain ⟨hm, hd⟩ := h
          subst hd
          subst hm
          exact ⟨rfl, rfl, rfl, rfl, rfl⟩

/-- Witness for C8 on the filesystem where the node exists and opens as
testDev. -/
theorem new_success_spec_witness :
    Msr.new presentFs 16 0 = Except.ok (⟨16, 0, List.replicate 8 0⟩, testDev) ∧
    ((⟨16, 0, List.replicate 8 0⟩ : Msr).reg = 16 ∧
     (⟨16, 0, List.replicate 8 0⟩ : Msr).buffer = List.replicate 8 0 ∧
     (⟨16, 0, List.replicate 8 0⟩ : Msr).fhPos = 0 ∧
     presentFs.pathExists (cpuMsrPath 0) = true ∧
     presentFs.openFile ⟨true, true⟩ (cpuMsrPath 0) = Except.ok testDev) :=
  ⟨rfl, new_success_spec presentFs 16 0 ⟨16, 0, List.replicate 8 0⟩ testDev rfl⟩

/-- C9: the fallback variant UnknownError is dead: no construction, read or
write, on any filesystem, device or accessor state, ever returns it; every
failure is MissingKernelModule (construction only) or IoError. -/
theorem no_unknown_error :
    (∀ fs reg cpu, Msr.new fs reg cpu ≠ Except.error MsrError.unknownError) ∧
    (∀ d m, (Msr.read d m).1 ≠ Except.error MsrError.unknownError) ∧
    (∀ m d, (Msr.write m d).1 ≠ Except.error MsrError.unknownError) := by
  refine ⟨?_, ?_, ?_⟩
  · intro fs reg cpu
    simp only [Msr.new]
    cases hp : fs.pathExists (cpuMsrPath cpu) <;> simp
    cases ho : fs.openFile ⟨true, true⟩ (cpuMsrPath cpu) <;> simp
  · intro d m
    unfold Msr.read
    cases hs : d.seekFail m.reg <;> simp
    split <;> simp
  · intro m d
    unfold Msr.write
    cases hw : d.writeFail m.reg <;> simp

end Msru
